import Mathlib

/-!
Verification of the clique-cabana-bot event reminder engine.

This file shallowly embeds the core of src/index.js (and, where a claim
refers to it, the variant implementation in src/unnamed/part_000):

* `readEvents` embeds the event-catalog reader (src/index.js lines 67-75);
* `getNextEvent` embeds next-event selection (src/index.js lines 153-165);
* `readOptins` / `listOptedIn` embed the opt-in registry reads
  (src/index.js lines 41-60) and `optIn` / `optOut` the mutations done by
  the remindme / remindoff interaction handlers (lines 439-465);
* `runReminderCheck` embeds the per-minute reminder evaluator
  (src/index.js lines 345-396), with the external world (file system,
  ISO-datetime parsing, chat platform) supplied as an explicit
  environment `Env`; `runReminderCheckVariant` embeds the variant
  evaluator of src/unnamed/part_000 (lines 194-246).

Instants are modelled as integer epoch milliseconds, matching the luxon
`toMillis` view used by the comparisons in the source.  Fallible external
actions (channel fetch, channel send, user fetch, direct-message send)
are modelled by boolean oracles in `Env`; a `catch`-and-ignore in the
source becomes a skipped recipient, while the unguarded `channel.send`
is modelled by the `raised` output flag.
-/

namespace CliqueCabana

/-- One record of the event catalog (events.json), restricted to the
fields the reminder engine reads: `id` and `startISO`. -/
structure Event where
  id : String
  startISO : String
deriving DecidableEq, Repr

/-- State of the events.json catalog source as seen by `readEvents`:
the file can be unreadable, hold invalid JSON, or parse to a document
whose `events` field is an array (`doc (some evs)`) or not an array /
absent (`doc none`). -/
inductive Catalog where
  | missing : Catalog
  | invalid : Catalog
  | doc : Option (List Event) → Catalog
deriving DecidableEq, Repr

/-- Embeds `readEvents` (src/index.js lines 67-75): any read or parse
failure, or a non-array `events` field, yields the empty list. -/
def readEvents : Catalog → List Event
  | Catalog.doc (some evs) => evs
  | _ => []

/-- State of the optins.json store: absent on disk, present but
unparseable, or parsed JSON whose `dmOptInUserIds` field is an array
(`doc (some ids)`) or absent (`doc none`). -/
inductive Store where
  | missing : Store
  | corrupt : Store
  | doc : Option (List String) → Store
deriving DecidableEq, Repr

/-- Embeds `ensureDataFiles` (src/index.js lines 41-51): when the store
file is absent it is created holding an empty id list. -/
def ensureDataFiles : Store → Store
  | Store.missing => Store.doc (some [])
  | s => s

/-- Embeds `readOptins` (src/index.js lines 53-60): ensure the file
exists, then parse it; a parse failure degrades to the empty document.
Returns the store state after the call together with the
`dmOptInUserIds` value of the returned document. -/
def readOptins (s : Store) : Store × Option (List String) :=
  match ensureDataFiles s with
  | Store.doc ids => (Store.doc ids, ids)
  | s2 => (s2, some [])

/-- The opted-in id list a caller obtains, i.e.
`readOptins().dmOptInUserIds || []` as used at src/index.js line 378. -/
def listOptedIn (s : Store) : List String :=
  ((readOptins s).2).getD []

/-- JS `Set.add` on an insertion-ordered list: append if absent. -/
def setAdd (l : List String) (u : String) : List String :=
  if u ∈ l then l else l ++ [u]

/-- JS `new Set(list)`: deduplicate keeping first occurrences. -/
def jsSet (l : List String) : List String :=
  l.foldl setAdd []

/-- Embeds the remindme handler mutation (src/index.js lines 440-443):
`Array.from(new Set(ids).add(u))`. -/
def optIn (ids : List String) (u : String) : List String :=
  setAdd (jsSet ids) u

/-- Embeds the remindoff handler mutation (src/index.js lines 454-457):
`ids.filter(id => id !== u)`. -/
def optOut (ids : List String) (u : String) : List String :=
  ids.filter (fun id => id != u)

/-- `Math.round (num / den)` for a positive denominator, computed
exactly on integers: floor (num / den + 1 / 2). -/
def jsRoundDiv (num den : Int) : Int :=
  Int.fdiv (2 * num + den) (2 * den)

/-- Embeds `Math.round(start.diff(now, "minutes").minutes)`
(src/index.js line 358) with both instants in epoch milliseconds. -/
def minutesUntil (start now : Int) : Int :=
  jsRoundDiv (start - now) 60000

/-- Non-crashing upcoming-event projection inside `getNextEvent`
(src/index.js lines 156-162): parse each start, keep events whose start
is valid and strictly after now, paired with the parsed instant. -/
def upcomingOf (parse : String → Option Int) (now : Int) (events : List Event) :
    List (Event × Int) :=
  events.filterMap fun e =>
    match parse e.startISO with
    | some t => if now < t then some (e, t) else none
    | none => none

/-- First element of the list sorted ascending by parsed start (the JS
sort is stable, so ties keep the earlier catalog entry). -/
def selectEarliest : List (Event × Int) → Option (Event × Int)
  | [] => none
  | x :: xs =>
    match selectEarliest xs with
    | none => some x
    | some y => if y.2 < x.2 then some y else some x

/-- Embeds `getNextEvent` (src/index.js lines 153-165), with the luxon
`DateTime.fromISO` parse supplied as an oracle and "now" explicit. -/
def getNextEvent (parse : String → Option Int) (now : Int) (events : List Event) :
    Option (Event × Int) :=
  selectEarliest (upcomingOf parse now events)

/-- Embeds `reminderState.has key` (JS `Set.has`). -/
def hasFired (st : List String) (k : String) : Bool :=
  decide (k ∈ st)

/-- Embeds `reminderState.add key` (JS `Set.add`). -/
def markFired (st : List String) (k : String) : List String :=
  if k ∈ st then st else k :: st

/-- The composite dedupe key from src/index.js line 367. -/
def reminderKey (eventId label : String) : String :=
  eventId ++ ":" ++ label

/-- The single configured threshold label of src/index.js line 362. -/
def window24Label : String := "24h"

/-- The single configured threshold, 24 * 60 minutes before start
(src/index.js line 363). -/
def window24Minutes : Int := 1440

/-- External inputs of one evaluator tick: the catalog state, the
ISO-datetime parse oracle, the current instant, the chat-platform
availability oracles, and the opt-in store state. -/
structure Env where
  catalog : Catalog
  parse : String → Option Int
  now : Int
  channelConfigured : Bool
  channelFetchOk : Bool
  channelSendOk : Bool
  optinsStore : Store
  userFetchOk : String → Bool
  dmOk : String → Bool

/-- Observable effects of one evaluator tick: whether the channel
announcement was posted, which opted-in users actually received a DM,
which (event, threshold) keys were dispatched, whether an exception
escaped the tick, and which diagnostic lines were logged. -/
structure Output where
  channelPosted : Bool
  dmsDelivered : List String
  dispatched : List String
  raised : Bool
  logs : List String
deriving DecidableEq, Repr

/-- The output of a tick that dispatches nothing and logs nothing. -/
def emptyOutput : Output :=
  ⟨false, [], [], false, []⟩

/-- Effects of the dispatch block (src/index.js lines 371-394): the
marker is already added when this runs; the channel announcement is
sent unguarded, so a send failure raises out of the tick and skips the
DM loop; otherwise each opted-in user is fetched (failure skips them)
and DMed inside try/catch (failure is ignored). -/
def dispatchOutput (env : Env) (k : String) : Output :=
  if env.channelSendOk then
    ⟨true,
     (listOptedIn env.optinsStore).filter (fun u => env.userFetchOk u && env.dmOk u),
     [k], false, []⟩
  else
    ⟨false, [], [k], true, []⟩

/-- Embeds `runReminderCheck` (src/index.js lines 347-396) as a pure
transition on the in-memory `reminderState`, returning the new state
and the observable output of the tick. -/
def runReminderCheck (env : Env) (st : List String) : List String × Output :=
  match getNextEvent env.parse env.now (readEvents env.catalog) with
  | none => (st, emptyOutput)
  | some (next, start) =>
    if env.channelConfigured = true then
      if env.channelFetchOk = true then
        if (minutesUntil start env.now - window24Minutes).natAbs ≤ 1 ∧
            hasFired st (reminderKey next.id window24Label) = false then
          (markFired st (reminderKey next.id window24Label),
           dispatchOutput env (reminderKey next.id window24Label))
        else (st, emptyOutput)
      else (st, emptyOutput)
    else (st, emptyOutput)

/-- A process lifetime: run the evaluator once per tick over a list of
per-tick environments, threading the in-memory state, and collect every
dispatched key in order. -/
def runDispatches : List Env → List String → List String
  | [], _ => []
  | env :: rest, st =>
    (runReminderCheck env st).2.dispatched ++
      runDispatches rest (runReminderCheck env st).1

/-- The threshold list of the variant evaluator
(src/unnamed/part_000 lines 213-216): 24 hours and 2 hours. -/
def windowsVariant : List (String × Int) :=
  [(window24Label, 1440), ("2h", 120)]

/-- One iteration of the threshold loop of the variant evaluator
(src/unnamed/part_000 lines 218-245); a raised channel-send failure in
an earlier iteration aborts the remaining iterations. -/
def variantStep (env : Env) (next : Event) (start : Int)
    (acc : List String × Output) (w : String × Int) : List String × Output :=
  if acc.2.raised then acc
  else
    if (minutesUntil start env.now - w.2).natAbs ≤ 1 ∧
        hasFired acc.1 (reminderKey next.id w.1) = false then
      (markFired acc.1 (reminderKey next.id w.1),
       ⟨acc.2.channelPosted || (dispatchOutput env (reminderKey next.id w.1)).channelPosted,
        acc.2.dmsDelivered ++ (dispatchOutput env (reminderKey next.id w.1)).dmsDelivered,
        acc.2.dispatched ++ (dispatchOutput env (reminderKey next.id w.1)).dispatched,
        (dispatchOutput env (reminderKey next.id w.1)).raised,
        acc.2.logs⟩)
    else acc

/-- Embeds the variant `runReminderCheck` (src/unnamed/part_000 lines
194-246), which logs a diagnostic console line when EVENT_CHANNEL_ID is
unset (lines 199-202); the log text is abbreviated here. -/
def runReminderCheckVariant (env : Env) (st : List String) : List String × Output :=
  match getNextEvent env.parse env.now (readEvents env.catalog) with
  | none => (st, emptyOutput)
  | some (next, start) =>
    if env.channelConfigured = true then
      if env.channelFetchOk = true then
        windowsVariant.foldl (variantStep env next start) (st, emptyOutput)
      else (st, emptyOutput)
    else (st, ⟨false, [], [], false, ["warn: EVENT_CHANNEL_ID not set"]⟩)

/-- A single-event tick environment with every external action
succeeding: one catalog entry whose start parses to `T`, evaluated at
instant `now`. -/
def tickEnvAt (ev : Event) (T now : Int) : Env :=
  ⟨Catalog.doc (some [ev]),
   fun s => if s = ev.startISO then some T else none,
   now, true, true, true, Store.doc (some []),
   fun _ => true, fun _ => true⟩

/-- Concrete tick environment used as a witness input: a single event
1441 minutes away, all external actions succeeding. -/
def envDispatching : Env :=
  tickEnvAt ⟨"ev1", "start1"⟩ 86460000 0

/-- Concrete tick environment whose channel send fails while the guard
of the 24h threshold holds. -/
def envSendFail : Env :=
  ⟨Catalog.doc (some [⟨"ev1", "start1"⟩]),
   fun s => if s = "start1" then some 86460000 else none,
   0, true, true, false, Store.doc (some ["alice"]),
   fun _ => true, fun _ => true⟩

/-- Concrete tick environment with two opted-in users, one of whom has
direct messages disabled. -/
def envTwoOptins : Env :=
  ⟨Catalog.doc (some [⟨"ev1", "start1"⟩]),
   fun s => if s = "start1" then some 86460000 else none,
   0, true, true, true, Store.doc (some ["alice", "bob"]),
   fun _ => true, fun u => u != "bob"⟩

/-- Concrete tick environment with an upcoming event but no reminder
channel configured. -/
def envNoChannel : Env :=
  ⟨Catalog.doc (some [⟨"ev1", "start1"⟩]),
   fun s => if s = "start1" then some 86460000 else none,
   0, false, true, true, Store.doc (some []),
   fun _ => true, fun _ => true⟩

/-- Concrete tick environment whose event catalog file is missing. -/
def envNoCatalog : Env :=
  ⟨Catalog.missing, fun _ => none, 0, true, true, true, Store.missing,
   fun _ => true, fun _ => true⟩

/-! ### Basic lemmas about the fired-marker set -/

theorem hasFired_false_iff (st : List String) (k : String) :
    hasFired st k = false ↔ k ∉ st := by
  simp [hasFired]

theorem mem_markFired_self (st : List String) (k : String) :
    k ∈ markFired st k := by
  unfold markFired
  by_cases h : k ∈ st <;> simp [h]

theorem subset_markFired (st : List String) (k : String) :
    st ⊆ markFired st k := by
  unfold markFired
  by_cases h : k ∈ st <;> simp [h]

theorem mem_markFired (st : List String) (k j : String) :
    j ∈ markFired st k ↔ j ∈ st ∨ j = k := by
  unfold markFired
  by_cases h : k ∈ st
  · simp [h]
    intro hj; rw [hj]; exact h
  · simp [h, or_comm]

/-! ### Case analysis for one evaluator tick -/

/-- Either a tick is a no-op, or the guard of src/index.js line 370
holds for the key of the next event and the tick dispatches exactly that
key, marking it fired. -/
theorem runReminderCheck_cases (env : Env) (st : List String) :
    runReminderCheck env st = (st, emptyOutput) ∨
    ∃ next start,
      getNextEvent env.parse env.now (readEvents env.catalog) = some (next, start) ∧
      env.channelConfigured = true ∧ env.channelFetchOk = true ∧
      (minutesUntil start env.now - window24Minutes).natAbs ≤ 1 ∧
      hasFired st (reminderKey next.id window24Label) = false ∧
      runReminderCheck env st =
        (markFired st (reminderKey next.id window24Label),
         dispatchOutput env (reminderKey next.id window24Label)) := by
  unfold runReminderCheck
  cases hg : getNextEvent env.parse env.now (readEvents env.catalog) with
  | none => exact Or.inl rfl
  | some p =>
    obtain ⟨next, start⟩ := p
    by_cases hc : env.channelConfigured = true
    · by_cases hf : env.channelFetchOk = true
      · by_cases ht : (minutesUntil start env.now - window24Minutes).natAbs ≤ 1 ∧
            hasFired st (reminderKey next.id window24Label) = false
        · exact Or.inr ⟨next, start, rfl, hc, hf, ht.1, ht.2, by simp [hc, hf, ht]⟩
        · exact Or.inl (by simp [hc, hf, ht])
      · exact Or.inl (by simp [hc, hf])
    · exact Or.inl (by simp [hc])

theorem dispatchOutput_dispatched (env : Env) (k : String) :
    (dispatchOutput env k).dispatched = [k] := by
  unfold dispatchOutput
  by_cases h : env.channelSendOk <;> simp [h]

/-- State monotonicity of one tick: no marker is ever removed. -/
theorem runReminderCheck_state_mono (env : Env) (st : List String) :
    st ⊆ (runReminderCheck env st).1 := by
  rcases runReminderCheck_cases env st with h | ⟨next, start, _, _, _, _, _, h⟩
  · rw [h]; exact fun x hx => hx
  · rw [h]; exact subset_markFired _ _

/-- A key already fired is never dispatched by a tick. -/
theorem not_dispatched_of_mem (env : Env) (st : List String) (k : String)
    (hk : k ∈ st) : k ∉ (runReminderCheck env st).2.dispatched := by
  rcases runReminderCheck_cases env st with h | ⟨next, start, _, _, _, _, hfired, h⟩
  · rw [h]; simp [emptyOutput]
  · rw [h]
    simp only [dispatchOutput_dispatched, List.mem_singleton]
    intro hkk
    rw [hkk] at hk
    exact (hasFired_false_iff _ _).mp hfired hk

/-- A key dispatched by a tick was unfired before and is fired after. -/
theorem dispatched_spec (env : Env) (st : List String) (k : String)
    (h : k ∈ (runReminderCheck env st).2.dispatched) :
    k ∉ st ∧ k ∈ (runReminderCheck env st).1 := by
  rcases runReminderCheck_cases env st with hc | ⟨next, start, _, _, _, _, hfired, hc⟩
  · rw [hc] at h; simp [emptyOutput] at h
  · rw [hc] at h ⊢
    simp only [dispatchOutput_dispatched, List.mem_singleton] at h
    subst h
    exact ⟨(hasFired_false_iff _ _).mp hfired, mem_markFired_self _ _⟩

/-- The keys dispatched by one tick: none, or a single unfired key. -/
theorem dispatched_shape (env : Env) (st : List String) :
    (runReminderCheck env st).2.dispatched = [] ∨
    ∃ k, (runReminderCheck env st).2.dispatched = [k] ∧ k ∉ st ∧
      k ∈ (runReminderCheck env st).1 := by
  rcases runReminderCheck_cases env st with h | ⟨next, start, _, _, _, _, hfired, h⟩
  · rw [h]; exact Or.inl rfl
  · refine Or.inr ⟨reminderKey next.id window24Label, ?_, ?_, ?_⟩
    · rw [h]; exact dispatchOutput_dispatched _ _
    · exact (hasFired_false_iff _ _).mp hfired
    · rw [h]; exact mem_markFired_self _ _

/-! ### Lemmas about whole runs -/

/-- A key already fired is never dispatched again in any later run. -/
theorem runDispatches_count_zero_of_mem (envs : List Env) (st : List String)
    (k : String) (hk : k ∈ st) : (runDispatches envs st).count k = 0 := by
  induction envs generalizing st with
  | nil => rfl
  | cons env rest ih =>
    unfold runDispatches
    rw [List.count_append]
    rw [List.count_eq_zero.mpr (not_dispatched_of_mem env st k hk)]
    rw [ih _ (runReminderCheck_state_mono env st hk)]

/-- Over any run from any state, each key is dispatched at most once. -/
theorem runDispatches_count_le_one (envs : List Env) (st : List String)
    (k : String) : (runDispatches envs st).count k ≤ 1 := by
  induction envs generalizing st with
  | nil => simp [runDispatches]
  | cons env rest ih =>
    unfold runDispatches
    rw [List.count_append]
    rcases dispatched_shape env st with h | ⟨j, hj, hjn, hjm⟩
    · rw [h]; simpa using ih (runReminderCheck env st).1
    · rw [hj]
      by_cases hkj : k = j
      · subst hkj
        rw [runDispatches_count_zero_of_mem rest _ k hjm]
        simp
      · rw [List.count_eq_zero.mpr (by simp [hkj])]
        simpa using ih (runReminderCheck env st).1

/-! ### Characterization of next-event selection -/

theorem selectEarliest_ne_none (x : Event × Int) (xs : List (Event × Int)) :
    selectEarliest (x :: xs) ≠ none := by
  unfold selectEarliest
  cases h : selectEarliest xs with
  | none => simp
  | some y => by_cases hlt : y.2 < x.2 <;> simp [hlt]

theorem selectEarliest_eq_none (l : List (Event × Int))
    (h : selectEarliest l = none) : l = [] := by
  cases l with
  | nil => rfl
  | cons x xs => exact absurd h (selectEarliest_ne_none x xs)

theorem selectEarliest_mem (l : List (Event × Int)) :
    ∀ x, selectEarliest l = some x → x ∈ l := by
  induction l with
  | nil => intro x h; simp [selectEarliest] at h
  | cons a xs ih =>
    intro x h
    unfold selectEarliest at h
    cases hs : selectEarliest xs with
    | none =>
      rw [hs] at h
      simp at h
      simp [h]
    | some y =>
      rw [hs] at h
      by_cases hlt : y.2 < a.2
      · simp [hlt] at h
        subst h
        exact List.mem_cons_of_mem a (ih y hs)
      · simp [hlt] at h
        simp [h]

theorem selectEarliest_min (l : List (Event × Int)) :
    ∀ x, selectEarliest l = some x → ∀ y ∈ l, x.2 ≤ y.2 := by
  induction l with
  | nil => intro x h; simp [selectEarliest] at h
  | cons a xs ih =>
    intro x h y hy
    unfold selectEarliest at h
    cases hs : selectEarliest xs with
    | none =>
      rw [hs] at h
      simp at h
      rcases selectEarliest_eq_none xs hs with rfl
      simp at hy
      rw [hy, ← h]
    | some z =>
      rw [hs] at h
      by_cases hlt : z.2 < a.2
      · simp [hlt] at h
        rcases List.mem_cons.mp hy with hya | hy2
        · rw [← h, hya]
          exact le_of_lt hlt
        · rw [← h]
          exact ih z hs y hy2
      · simp [hlt] at h
        rcases List.mem_cons.mp hy with hya | hy2
        · rw [← h, hya]
        · rw [← h]
          exact le_trans (not_lt.mp hlt) (ih z hs y hy2)

theorem mem_upcomingOf (parse : String → Option Int) (now : Int)
    (events : List Event) (e : Event) (t : Int) :
    (e, t) ∈ upcomingOf parse now events ↔
      e ∈ events ∧ parse e.startISO = some t ∧ now < t := by
  unfold upcomingOf
  rw [List.mem_filterMap]
  constructor
  · rintro ⟨a, ha, hfa⟩
    cases hp : parse a.startISO with
    | none => rw [hp] at hfa; simp at hfa
    | some u =>
      rw [hp] at hfa
      by_cases hu : now < u
      · simp [hu] at hfa
        obtain ⟨rfl, rfl⟩ := hfa
        exact ⟨ha, hp, hu⟩
      · simp [hu] at hfa
  · rintro ⟨he, hp, ht⟩
    refine ⟨e, he, ?_⟩
    rw [hp]
    simp [ht]

/-! ### Evaluating a tick on a one-event catalog -/

theorem getNextEvent_tickEnvAt (ev : Event) (T now : Int) :
    getNextEvent (tickEnvAt ev T now).parse (tickEnvAt ev T now).now
        (readEvents (tickEnvAt ev T now).catalog) =
      if now < T then some (ev, T) else none := by
  by_cases h : now < T <;>
    simp [getNextEvent, upcomingOf, selectEarliest, readEvents, tickEnvAt, h]

theorem runReminderCheck_tickEnvAt (ev : Event) (T now : Int) (st : List String) :
    runReminderCheck (tickEnvAt ev T now) st =
      if now < T ∧ (minutesUntil T now - window24Minutes).natAbs ≤ 1 ∧
          hasFired st (reminderKey ev.id window24Label) = false then
        (markFired st (reminderKey ev.id window24Label),
         dispatchOutput (tickEnvAt ev T now) (reminderKey ev.id window24Label))
      else (st, emptyOutput) := by
  unfold runReminderCheck
  rw [getNextEvent_tickEnvAt]
  by_cases hn : now < T
  · rw [if_pos hn]
    by_cases ht : (minutesUntil T now - window24Minutes).natAbs ≤ 1 ∧
        hasFired st (reminderKey ev.id window24Label) = false
    · simp only [tickEnvAt] at ht ⊢
      simp [ht, hn]
    · simp only [tickEnvAt] at ht ⊢
      simp [ht, hn]
  · rw [if_neg hn]
    simp [hn]

theorem minutesUntil_shift (T c : Int) :
    minutesUntil T (T - c) = jsRoundDiv c 60000 := by
  unfold minutesUntil
  congr 1
  omega

theorem markFired_nil (k : String) : markFired [] k = [k] := by
  simp [markFired]

/-! ### Claim theorems -/

/-- C3: for every parse oracle, instant "now" and event list,
`getNextEvent` returns an event of the list whose start parses to an
instant strictly after now that is minimal among all such events, or
none when no event has a parseable start strictly after now; events
with unparseable starts are excluded and never cause a failure (the
function is total by construction). -/
theorem getNextEvent_spec (parse : String → Option Int) (now : Int)
    (events : List Event) :
    (∀ e t, getNextEvent parse now events = some (e, t) →
      e ∈ events ∧ parse e.startISO = some t ∧ now < t ∧
        ∀ e2 t2, e2 ∈ events → parse e2.startISO = some t2 → now < t2 → t ≤ t2) ∧
    (getNextEvent parse now events = none →
      ∀ e t, e ∈ events → parse e.startISO = some t → ¬ now < t) := by
  constructor
  · intro e t h
    have hmem := selectEarliest_mem _ _ h
    rw [mem_upcomingOf] at hmem
    refine ⟨hmem.1, hmem.2.1, hmem.2.2, ?_⟩
    intro e2 t2 he2 hp2 ht2
    have h2 : (e2, t2) ∈ upcomingOf parse now events :=
      (mem_upcomingOf parse now events e2 t2).mpr ⟨he2, hp2, ht2⟩
    exact selectEarliest_min _ _ h (e2, t2) h2
  · intro h e t he hp ht
    have hnil := selectEarliest_eq_none _ h
    have : (e, t) ∈ upcomingOf parse now events :=
      (mem_upcomingOf parse now events e t).mpr ⟨he, hp, ht⟩
    rw [hnil] at this
    simp at this

/-- C2: on a one-event catalog with start instant T, a tick dispatches
exactly when now is strictly before T and the rounded minutes until T
are within tolerance 1 of the 1440-minute threshold; consequently the
three ticks at T - 24h01m, T - 24h00m and T - 23h59m dispatch exactly
once combined (the first dispatches, the later two are deduplicated)
and a tick at T - 22h (1320 minutes) never triggers. -/
theorem tolerance_window_dedup (eid iso : String) (T : Int) :
    (∀ now, (runReminderCheck (tickEnvAt ⟨eid, iso⟩ T now) []).2.dispatched ≠ [] ↔
       now < T ∧ (minutesUntil T now - window24Minutes).natAbs ≤ 1) ∧
    (runDispatches
       [tickEnvAt ⟨eid, iso⟩ T (T - 1441 * 60000),
        tickEnvAt ⟨eid, iso⟩ T (T - 1440 * 60000),
        tickEnvAt ⟨eid, iso⟩ T (T - 1439 * 60000)] []).count
        (reminderKey eid window24Label) = 1 ∧
    (runReminderCheck (tickEnvAt ⟨eid, iso⟩ T (T - 1441 * 60000)) []).2.dispatched
        = [reminderKey eid window24Label] ∧
    (runReminderCheck (tickEnvAt ⟨eid, iso⟩ T (T - 1320 * 60000)) []).2.dispatched = [] := by
  have hkey : ∀ k : String, hasFired [] k = false := by
    intro k; simp [hasFired]
  have h1 : runReminderCheck (tickEnvAt ⟨eid, iso⟩ T (T - 1441 * 60000)) [] =
      ([reminderKey eid window24Label],
       dispatchOutput (tickEnvAt ⟨eid, iso⟩ T (T - 1441 * 60000))
         (reminderKey eid window24Label)) := by
    rw [runReminderCheck_tickEnvAt]
    rw [if_pos ⟨by omega, by rw [minutesUntil_shift]; decide, hkey _⟩]
    simp [markFired]
  have h2 : runReminderCheck (tickEnvAt ⟨eid, iso⟩ T (T - 1440 * 60000))
      [reminderKey eid window24Label] = ([reminderKey eid window24Label], emptyOutput) := by
    rw [runReminderCheck_tickEnvAt]
    rw [if_neg]
    rintro ⟨-, -, hf⟩
    simp [hasFired] at hf
  have h3 : runReminderCheck (tickEnvAt ⟨eid, iso⟩ T (T - 1439 * 60000))
      [reminderKey eid window24Label] = ([reminderKey eid window24Label], emptyOutput) := by
    rw [runReminderCheck_tickEnvAt]
    rw [if_neg]
    rintro ⟨-, -, hf⟩
    simp [hasFired] at hf
  refine ⟨?_, ?_, ?_, ?_⟩
  · intro now
    rw [runReminderCheck_tickEnvAt]
    by_cases h : now < T ∧ (minutesUntil T now - window24Minutes).natAbs ≤ 1
    · rw [if_pos ⟨h.1, h.2, hkey _⟩]
      simp [dispatchOutput_dispatched, h]
    · rw [if_neg (fun hh => h ⟨hh.1, hh.2.1⟩)]
      simpa [emptyOutput] using h
  · norm_num at h1 h2 h3
    simp [runDispatches, h1, h2, h3, dispatchOutput_dispatched, emptyOutput]
  · rw [h1]
    exact dispatchOutput_dispatched _ _
  · rw [runReminderCheck_tickEnvAt]
    rw [if_neg]
    · rfl
    · rintro ⟨-, habs, -⟩
      rw [minutesUntil_shift] at habs
      revert habs
      decide

/-- C1: a (event id, threshold label) key is dispatched at most once
per process lifetime: over any tick sequence from the initial empty
state it is dispatched at most once; on a tick that dispatches it,
`hasFired` is false on the pre-state and true on the post-state; and
once fired, no later tick sequence with any inputs dispatches it. -/
theorem reminder_dispatch_at_most_once (k : String) (envs : List Env)
    (env : Env) (st : List String)
    (h : k ∈ (runReminderCheck env st).2.dispatched) :
    (runDispatches envs []).count k ≤ 1 ∧
    hasFired st k = false ∧
    hasFired (runReminderCheck env st).1 k = true ∧
    ∀ later : List Env,
      (runDispatches later (runReminderCheck env st).1).count k = 0 := by
  obtain ⟨hpre, hpost⟩ := dispatched_spec env st k h
  refine ⟨runDispatches_count_le_one envs [] k, (hasFired_false_iff st k).mpr hpre,
    ?_, fun later => runDispatches_count_zero_of_mem later _ k hpost⟩
  simpa [hasFired] using hpost

theorem reminder_dispatch_at_most_once_witness :
    ("ev1:24h" ∈ (runReminderCheck envDispatching []).2.dispatched) ∧
    ((runDispatches [envDispatching, envDispatching] []).count "ev1:24h" ≤ 1 ∧
     hasFired [] "ev1:24h" = false ∧
     hasFired (runReminderCheck envDispatching []).1 "ev1:24h" = true ∧
     ∀ later : List Env,
       (runDispatches later (runReminderCheck envDispatching []).1).count "ev1:24h" = 0) :=
  ⟨by decide,
   reminder_dispatch_at_most_once "ev1:24h" [envDispatching, envDispatching]
     envDispatching [] (by decide)⟩

/-- C4: the fired-marker state machine is monotone: a tick never
removes a marker, and it either leaves the state unchanged or adds
exactly the 24h key of the next event, a pending-to-fired transition guarded
by the tolerance-window predicate on a previously unfired key. -/
theorem fired_marker_monotone (env : Env) (st : List String) :
    st ⊆ (runReminderCheck env st).1 ∧
    ((runReminderCheck env st).1 = st ∨
      ∃ next start,
        getNextEvent env.parse env.now (readEvents env.catalog) = some (next, start) ∧
        (minutesUntil start env.now - window24Minutes).natAbs ≤ 1 ∧
        hasFired st (reminderKey next.id window24Label) = false ∧
        (runReminderCheck env st).1 = reminderKey next.id window24Label :: st) := by
  refine ⟨runReminderCheck_state_mono env st, ?_⟩
  rcases runReminderCheck_cases env st with h | ⟨next, start, hg, _, _, ht, hf, h⟩
  · left; rw [h]
  · right
    refine ⟨next, start, hg, ht, hf, ?_⟩
    rw [h]
    simp [markFired, (hasFired_false_iff st _).mp hf]

/-- C10: the fired marker is added before any send is attempted: on a
tick that dispatches a key while the channel send fails, the key is
nonetheless marked fired, the announcement is not posted, no direct
message is delivered, the exception escapes the tick, and no later tick
sequence ever dispatches that key again. -/
theorem marker_added_before_send (env : Env) (st : List String) (k : String)
    (h : k ∈ (runReminderCheck env st).2.dispatched)
    (hsend : env.channelSendOk = false) :
    k ∈ (runReminderCheck env st).1 ∧
    (runReminderCheck env st).2.channelPosted = false ∧
    (runReminderCheck env st).2.dmsDelivered = [] ∧
    (runReminderCheck env st).2.raised = true ∧
    ∀ later : List Env,
      (runDispatches later (runReminderCheck env st).1).count k = 0 := by
  obtain ⟨hpre, hpost⟩ := dispatched_spec env st k h
  rcases runReminderCheck_cases env st with hc | ⟨next, start, _, _, _, _, hf, hc⟩
  · rw [hc] at h
    simp [emptyOutput] at h
  · refine ⟨hpost, ?_, ?_, ?_,
      fun later => runDispatches_count_zero_of_mem later _ k hpost⟩
    all_goals rw [hc]
    all_goals simp [dispatchOutput, hsend]

theorem marker_added_before_send_witness :
    ("ev1:24h" ∈ (runReminderCheck envSendFail []).2.dispatched ∧
     envSendFail.channelSendOk = false) ∧
    ("ev1:24h" ∈ (runReminderCheck envSendFail []).1 ∧
     (runReminderCheck envSendFail []).2.channelPosted = false ∧
     (runReminderCheck envSendFail []).2.dmsDelivered = [] ∧
     (runReminderCheck envSendFail []).2.raised = true ∧
     ∀ later : List Env,
       (runDispatches later (runReminderCheck envSendFail []).1).count "ev1:24h" = 0) :=
  ⟨⟨by decide, rfl⟩,
   marker_added_before_send envSendFail [] "ev1:24h" (by decide) rfl⟩

/-- C6: on a dispatching tick whose channel send succeeds, per-recipient
direct-message failures are non-fatal: the announcement posts, no
exception escapes the tick, the delivered set is exactly the opted-in
users whose fetch and send both succeed, and every reachable opted-in
user receives their message regardless of failures for the others. -/
theorem dm_failure_nonfatal (env : Env) (st : List String)
    (hd : (runReminderCheck env st).2.dispatched ≠ [])
    (hsend : env.channelSendOk = true) :
    (runReminderCheck env st).2.channelPosted = true ∧
    (runReminderCheck env st).2.raised = false ∧
    (runReminderCheck env st).2.dmsDelivered =
      (listOptedIn env.optinsStore).filter
        (fun u => env.userFetchOk u && env.dmOk u) ∧
    ∀ u, u ∈ listOptedIn env.optinsStore → env.userFetchOk u = true →
      env.dmOk u = true → u ∈ (runReminderCheck env st).2.dmsDelivered := by
  rcases runReminderCheck_cases env st with hc | ⟨next, start, _, _, _, _, _, hc⟩
  · rw [hc] at hd
    simp [emptyOutput] at hd
  · rw [hc]
    simp only [dispatchOutput, hsend, if_true]
    refine ⟨by simp, by simp, by simp, ?_⟩
    intro u hu hf hdm
    simp [List.mem_filter, hu, hf, hdm]

theorem dm_failure_nonfatal_witness :
    ((runReminderCheck envTwoOptins []).2.dispatched ≠ [] ∧
     envTwoOptins.channelSendOk = true) ∧
    ((runReminderCheck envTwoOptins []).2.channelPosted = true ∧
     (runReminderCheck envTwoOptins []).2.raised = false ∧
     (runReminderCheck envTwoOptins []).2.dmsDelivered =
       (listOptedIn envTwoOptins.optinsStore).filter
         (fun u => envTwoOptins.userFetchOk u && envTwoOptins.dmOk u) ∧
     ∀ u, u ∈ listOptedIn envTwoOptins.optinsStore →
       envTwoOptins.userFetchOk u = true → envTwoOptins.dmOk u = true →
       u ∈ (runReminderCheck envTwoOptins []).2.dmsDelivered) ∧
    (runReminderCheck envTwoOptins []).2.dmsDelivered = ["alice"] ∧
    (runReminderCheck envTwoOptins []).2.channelPosted = true :=
  ⟨⟨by decide, rfl⟩,
   dm_failure_nonfatal envTwoOptins [] (by decide) rfl,
   by decide, by decide⟩

/-- C9: when no reminder channel is configured a tick dispatches
nothing and changes no state in both implementations; the variant
implementation additionally emits the diagnostic notice whenever a next
event exists (src/index.js returns from the tick silently, its startup
pin routine carrying the analogous warning). -/
theorem missing_channel_noop (env : Env) (st : List String)
    (h : env.channelConfigured = false) :
    runReminderCheck env st = (st, emptyOutput) ∧
    (runReminderCheckVariant env st).1 = st ∧
    (runReminderCheckVariant env st).2.dispatched = [] ∧
    ∀ next start,
      getNextEvent env.parse env.now (readEvents env.catalog) = some (next, start) →
      (runReminderCheckVariant env st).2.logs =
        ["warn: EVENT_CHANNEL_ID not set"] := by
  have hb : ¬ env.channelConfigured = true := by simp [h]
  unfold runReminderCheck runReminderCheckVariant
  cases hg : getNextEvent env.parse env.now (readEvents env.catalog) with
  | none => simp [emptyOutput]
  | some p =>
    obtain ⟨next, start⟩ := p
    simp [hb, emptyOutput]

theorem missing_channel_noop_witness :
    (envNoChannel.channelConfigured = false) ∧
    runReminderCheck envNoChannel [] = ([], emptyOutput) ∧
    (runReminderCheckVariant envNoChannel []).2.logs =
      ["warn: EVENT_CHANNEL_ID not set"] :=
  ⟨rfl, (missing_channel_noop envNoChannel [] rfl).1, by decide⟩

/-! ### Opt-in registry algebra -/

theorem mem_setAdd (l : List String) (u v : String) :
    v ∈ setAdd l u ↔ v ∈ l ∨ v = u := by
  unfold setAdd
  by_cases h : u ∈ l
  · rw [if_pos h]
    constructor
    · exact Or.inl
    · rintro (hv | rfl)
      · exact hv
      · exact h
  · rw [if_neg h]
    simp

theorem nodup_setAdd (l : List String) (u : String) (h : l.Nodup) :
    (setAdd l u).Nodup := by
  unfold setAdd
  by_cases hu : u ∈ l
  · rw [if_pos hu]; exact h
  · rw [if_neg hu]
    rw [List.nodup_append]
    refine ⟨h, List.nodup_singleton u, ?_⟩
    intro v hv hvu
    rw [List.mem_singleton] at hvu
    exact hu (hvu ▸ hv)

theorem setAdd_of_mem (l : List String) (u : String) (h : u ∈ l) :
    setAdd l u = l := by
  unfold setAdd
  rw [if_pos h]

theorem nodup_foldl_setAdd (l : List String) :
    ∀ acc : List String, acc.Nodup → (l.foldl setAdd acc).Nodup := by
  induction l with
  | nil => intro acc h; exact h
  | cons x xs ih =>
    intro acc h
    exact ih (setAdd acc x) (nodup_setAdd acc x h)

theorem mem_foldl_setAdd (l : List String) :
    ∀ acc v, v ∈ l.foldl setAdd acc ↔ v ∈ acc ∨ v ∈ l := by
  induction l with
  | nil => intro acc v; simp
  | cons x xs ih =>
    intro acc v
    rw [List.foldl_cons, ih, mem_setAdd]
    simp
    tauto

theorem foldl_setAdd_of_nodup (l : List String) :
    ∀ acc : List String, l.Nodup → (∀ x ∈ l, x ∉ acc) →
      l.foldl setAdd acc = acc ++ l := by
  induction l with
  | nil => intro acc _ _; simp
  | cons x xs ih =>
    intro acc hnd hdisj
    rw [List.foldl_cons]
    have hx : x ∉ acc := hdisj x (List.mem_cons_self x xs)
    have hstep : setAdd acc x = acc ++ [x] := by
      unfold setAdd; rw [if_neg hx]
    rw [hstep, ih (acc ++ [x]) (List.nodup_cons.mp hnd).2 ?_]
    · simp
    · intro y hy
      rw [List.mem_append]
      rintro (hya | hyx)
      · exact hdisj y (List.mem_cons_of_mem x hy) hya
      · rw [List.mem_singleton] at hyx
        exact (List.nodup_cons.mp hnd).1 (hyx ▸ hy)

theorem jsSet_nodup (l : List String) : (jsSet l).Nodup :=
  nodup_foldl_setAdd l [] List.nodup_nil

theorem mem_jsSet (l : List String) (v : String) : v ∈ jsSet l ↔ v ∈ l := by
  unfold jsSet
  rw [mem_foldl_setAdd]
  simp

theorem jsSet_of_nodup (l : List String) (h : l.Nodup) : jsSet l = l := by
  unfold jsSet
  rw [foldl_setAdd_of_nodup l [] h (fun x _ hx => (List.not_mem_nil x) hx)]
  simp

theorem optIn_nodup (ids : List String) (u : String) : (optIn ids u).Nodup :=
  nodup_setAdd (jsSet ids) u (jsSet_nodup ids)

theorem mem_optIn (ids : List String) (u v : String) :
    v ∈ optIn ids u ↔ v ∈ ids ∨ v = u := by
  unfold optIn
  rw [mem_setAdd, mem_jsSet]

/-- C5: opt-in and opt-out are idempotent on the stored id set: the
list written by an opt-in is duplicate-free and holds exactly the
previous members plus the new user, so opting in a user already present
changes nothing the second time; opting out an absent user does not
error and leaves the stored list unchanged. -/
theorem optin_optout_idempotent (ids : List String) (u : String) :
    (optIn ids u).Nodup ∧
    (∀ v, v ∈ optIn ids u ↔ v ∈ ids ∨ v = u) ∧
    optIn (optIn ids u) u = optIn ids u ∧
    optOut (optOut ids u) u = optOut ids u ∧
    (u ∉ ids → optOut ids u = ids) := by
  refine ⟨optIn_nodup ids u, mem_optIn ids u, ?_, ?_, ?_⟩
  · show setAdd (jsSet (optIn ids u)) u = optIn ids u
    rw [jsSet_of_nodup (optIn ids u) (optIn_nodup ids u)]
    exact setAdd_of_mem _ u ((mem_optIn ids u u).mpr (Or.inr rfl))
  · unfold optOut
    rw [List.filter_filter]
    simp
  · intro h
    rw [optOut, List.filter_eq_self]
    intro x hx
    simp only [bne_iff_ne, ne_eq]
    rintro rfl
    exact h hx

theorem optin_optout_idempotent_witness :
    (("b" : String) ∉ (["a"] : List String)) ∧
    (optIn ["a"] "b").Nodup ∧
    optIn (optIn ["a"] "b") "b" = optIn ["a"] "b" ∧
    optOut ["a"] "b" = ["a"] ∧
    optIn ["a", "b"] "b" = ["a", "b"] :=
  ⟨by decide, (optin_optout_idempotent ["a"] "b").1,
   (optin_optout_idempotent ["a"] "b").2.2.1,
   (optin_optout_idempotent ["a"] "b").2.2.2.2 (by decide),
   by decide⟩

/-- C7: reading the opt-in store never raises: a missing store is
auto-initialized to the empty document and yields the empty id set; a
corrupt (unparseable) store yields the empty id set without being
rewritten; a parsed document lacking the id field also degrades to the
empty set, and otherwise the stored ids are returned. -/
theorem listOptedIn_total :
    readOptins Store.missing = (Store.doc (some []), some []) ∧
    listOptedIn Store.missing = [] ∧
    readOptins Store.corrupt = (Store.corrupt, some []) ∧
    listOptedIn Store.corrupt = [] ∧
    listOptedIn (Store.doc none) = [] ∧
    ∀ ids, listOptedIn (Store.doc (some ids)) = ids :=
  ⟨rfl, rfl, rfl, rfl, rfl, fun _ => rfl⟩

/-- C8: the catalog reader returns the empty list on a missing file,
invalid JSON, or a document whose events field is not an array, and the
parsed list otherwise; a tick whose catalog yields no events is a
no-op: state unchanged and empty output. -/
theorem readEvents_failure_empty :
    readEvents Catalog.missing = [] ∧
    readEvents Catalog.invalid = [] ∧
    readEvents (Catalog.doc none) = [] ∧
    (∀ evs, readEvents (Catalog.doc (some evs)) = evs) ∧
    ∀ env st, readEvents env.catalog = [] →
      runReminderCheck env st = (st, emptyOutput) := by
  refine ⟨rfl, rfl, rfl, fun _ => rfl, ?_⟩
  intro env st h
  unfold runReminderCheck
  rw [h]
  rfl

theorem readEvents_failure_empty_witness :
    readEvents envNoCatalog.catalog = [] ∧
    runReminderCheck envNoCatalog [] = ([], emptyOutput) :=
  ⟨rfl, readEvents_failure_empty.2.2.2.2 envNoCatalog [] rfl⟩

end CliqueCabana
